import Mathlib

/-
Verification of the OfficeToPDF job supervisor (app/queue.py, app/main.py)
and process lifecycle manager (app/converter.py) against its specification.

The Python core is shallowly embedded: job records become a Lean structure,
the ConvertQueue state (the jobs dict plus the pending list) becomes an
explicit state value threaded through the operations, the event-loop clock
becomes an integer parameter, and the fallible conversion runner becomes a
function returning Except. The runner is indexed by the 0-based attempt
number so that stubs that fail some attempts and succeed on others can be
expressed.
-/

namespace OfficeToPDF

/-- Job lifecycle states, from the JobStatus enum in app/models.py. -/
inductive JobStatus where
  | queued
  | running
  | done
  | failed
  | cleaned
  deriving DecidableEq, Repr

/-- One conversion job record, from the Job dataclass in app/queue.py.
Event-loop timestamps are modelled as integers; max_retries is an int that
the environment may set to any value, including a negative one. -/
structure Job where
  id : String
  infile_path : String
  outdir : String
  convert_to : Option String
  status : JobStatus := JobStatus.queued
  message : Option String := none
  outfile_path : Option String := none
  retries : Nat := 0
  max_retries : Int := 2
  finished_at : Option Int := none
  deriving DecidableEq, Repr

/-- The mutable state of a ConvertQueue: the jobs dict (an association list
in insertion order) and the pending list of job ids in queued order. -/
structure QState where
  jobs : List (String × Job)
  pending : List String
  deriving DecidableEq, Repr

/-- Rewrite the record stored under the given id. Python mutates the Job
object held in the dict; here the entry is rewritten in place. -/
def updateJob (st : QState) (id : String) (f : Job → Job) : QState :=
  { st with jobs := st.jobs.map fun p => if p.1 = id then (p.1, f p.2) else p }

/-- Outcome of the retry loop of ConvertQueue._attempt_with_retries: the
0-based attempt indices at which the runner was actually invoked, in order
(each index is written to the retries field of the job just before that
attempt begins), the final value of the retries field, and the final
result. -/
structure RetryResult where
  invoked : List Nat
  retries : Nat
  result : Except String String
  deriving Repr

/-- Loop body of ConvertQueue._attempt_with_retries. The first numeric
argument counts the loop iterations that remain, the second is the next
0-based attempt index, the third the current value of the retries field of
the job, and the last the most recent exception, if any. On success the
loop returns at once; when the iterations are exhausted the last exception
is re-raised, or a generic failure is synthesized when none was recorded. -/
def retryRun (runner : Nat → Except String String) :
    Nat → Nat → Nat → Option String → RetryResult
  | 0, _, retries, lastErr =>
      ⟨[], retries, Except.error (lastErr.getD "Unknown conversion failure")⟩
  | remaining + 1, attempt, _, _ =>
      match runner attempt with
      | Except.ok p => ⟨[attempt], attempt, Except.ok p⟩
      | Except.error e =>
          let rest := retryRun runner remaining (attempt + 1) attempt (some e)
          ⟨attempt :: rest.invoked, rest.retries, rest.result⟩

/-- ConvertQueue._attempt_with_retries for a job whose max_retries field is
maxRetries and whose retries field currently holds retries0. The Python
loop runs over range(max_retries + 1), which is empty when the configured
value makes max_retries + 1 nonpositive. -/
def attemptWithRetries (maxRetries : Int) (retries0 : Nat)
    (runner : Nat → Except String String) : RetryResult :=
  retryRun runner (maxRetries + 1).toNat 0 retries0 none

/-- Effect of ConvertQueue.run_job on the job record once the semaphore
slot is obtained: mark the job running, drive the retry loop, and record
the terminal outcome, with finished_at taken from the event-loop clock.
The exception branch of the Python code catches every runner failure, so
this function is total. -/
def runJobUpdate (j : Job) (runner : Nat → Except String String) (now : Int) : Job :=
  let j1 := { j with status := JobStatus.running }
  let r := attemptWithRetries j1.max_retries j1.retries runner
  match r.result with
  | Except.ok out =>
      { j1 with retries := r.retries, outfile_path := some out,
                status := JobStatus.done, finished_at := some now }
  | Except.error e =>
      { j1 with retries := r.retries, status := JobStatus.failed,
                message := some e, finished_at := some now }

/-- ConvertQueue.run_job at the registry level: remove the id from pending
if present (a no-op otherwise) and rewrite the record with the terminal
outcome. -/
def runJob (st : QState) (id : String) (runner : Nat → Except String String)
    (now : Int) : QState :=
  let st1 := { st with pending := st.pending.erase id }
  updateJob st1 id fun j => runJobUpdate j runner now

/-- Field updates performed by ConvertQueue.enqueue when the queue is full.
Only status and message are written; finished_at is left untouched. -/
def rejectUpdate (j : Job) : Job :=
  { j with status := JobStatus.failed, message := some "Queue is full" }

/-- ConvertQueue.enqueue with MAX_QUEUE_SIZE = maxQueueSize. The Python
guard is the truthiness test MAX_QUEUE_SIZE and len(pending) >=
MAX_QUEUE_SIZE, so 0 disables the bound entirely. -/
def enqueue (maxQueueSize : Int) (st : QState) (id : String) : QState :=
  if maxQueueSize ≠ 0 ∧ maxQueueSize ≤ (st.pending.length : Int) then
    updateJob st id rejectUpdate
  else if id ∈ st.pending then st
  else
    { updateJob st id (fun j => { j with status := JobStatus.queued }) with
        pending := st.pending ++ [id] }

/-- Effect of the convert_sync endpoint body of app/main.py on the job
record once the semaphore is held: mark the job running, drive the retry
loop, record done or failed, and surface the outcome to the HTTP caller.
No branch of this path writes finished_at. -/
def convertSyncUpdate (j : Job) (runner : Nat → Except String String) :
    Job × Except String String :=
  let j1 := { j with status := JobStatus.running }
  let r := attemptWithRetries j1.max_retries j1.retries runner
  match r.result with
  | Except.ok out =>
      ({ j1 with retries := r.retries, outfile_path := some out,
                 status := JobStatus.done }, Except.ok out)
  | Except.error e =>
      ({ j1 with retries := r.retries, status := JobStatus.failed,
                 message := some e },
       Except.error ("Conversion failed: " ++ e))

/-- Python x or now for the stored finished_at value: now is substituted
when the stored value is None and also when it is the falsy number 0. -/
def orFalsy (t : Option Int) (now : Int) : Int :=
  match t with
  | some v => if v = 0 then now else v
  | none => now

/-- Field updates performed by ConvertQueue.cleanup_job on an existing
record, whatever its current status. -/
def cleanupUpdate (now : Int) (j : Job) : Job :=
  { j with outfile_path := none, status := JobStatus.cleaned,
           message := some "Cleaned up after retention period",
           finished_at := some (orFalsy j.finished_at now) }

/-- ConvertQueue.cleanup_job: a no-op for an unknown id; otherwise rewrite
the record as cleaned and drop the id from pending if present. -/
def cleanupJob (st : QState) (id : String) (now : Int) : QState :=
  match List.lookup id st.jobs with
  | none => st
  | some _ =>
      let st1 := updateJob st id (cleanupUpdate now)
      { st1 with pending := st1.pending.erase id }

/-- Expiry test of ConvertQueue.evict_old_jobs for one record: a terminal
status together with a finished_at that is present and strictly older than
the ttl window. -/
def isExpired (ttl now : Int) (j : Job) : Bool :=
  (j.status == JobStatus.done || j.status == JobStatus.failed ||
      j.status == JobStatus.cleaned) &&
    (match j.finished_at with
     | some t => decide (now - t > ttl)
     | none => false)

/-- ConvertQueue.evict_old_jobs with JOB_RECORD_TTL_SECONDS = ttl: a
nonpositive ttl disables the sweep, otherwise every expired record is
deleted from the jobs dict. -/
def evictOldJobs (ttl now : Int) (st : QState) : QState :=
  if ttl ≤ 0 then st
  else { st with jobs := st.jobs.filter fun p => !(isExpired ttl now p.2) }

/-- Return value of ConvertQueue.counters. -/
structure Counters where
  total : Nat
  queue_len : Nat
  running : Nat
  done : Nat
  failed : Nat
  deriving DecidableEq, Repr

/-- ConvertQueue.counters: the dict size plus one count per status bucket,
each a filtered length over the stored records. No bucket counts cleaned
records. -/
def counters (st : QState) : Counters where
  total := st.jobs.length
  queue_len := (st.jobs.filter fun p => p.2.status == JobStatus.queued).length
  running := (st.jobs.filter fun p => p.2.status == JobStatus.running).length
  done := (st.jobs.filter fun p => p.2.status == JobStatus.done).length
  failed := (st.jobs.filter fun p => p.2.status == JobStatus.failed).length

/-- Split a character list at every occurrence of the separator, keeping
empty pieces, as Python str.split with an explicit separator does. Stated
structurally so that concrete instances evaluate inside the kernel. -/
def splitOnChar (sep : Char) : List Char → List (List Char)
  | [] => [[]]
  | x :: xs =>
      let r := splitOnChar sep xs
      if x = sep then [] :: r
      else match r with
        | [] => [[x]]
        | h :: t => (x :: h) :: t

/-- os.path.basename for POSIX paths: the piece after the last slash. -/
def basename (p : String) : String :=
  String.mk ((splitOnChar '/' p.data).getLastD p.data)

/-- ASCII lowercasing of one character, the fragment of str.lower relevant
to extension matching. -/
def asciiLower (c : Char) : Char :=
  if 'A' ≤ c ∧ c ≤ 'Z' then Char.ofNat (c.toNat + 32) else c

/-- str.lower over the ASCII range. -/
def lowerStr (s : String) : String :=
  String.mk (s.data.map asciiLower)

/-- str.startswith. -/
def strStartsWith (s pre : String) : Bool :=
  List.isPrefixOf pre.data s.data

/-- str.endswith. -/
def strEndsWith (s suf : String) : Bool :=
  List.isPrefixOf suf.data.reverse s.data.reverse

/-- Whitespace test for str.strip. -/
def isWS (c : Char) : Bool :=
  c = ' ' || c = '\t' || c = '\n' || c = '\r'

/-- str.strip: drop whitespace from both ends. -/
def strTrim (s : String) : String :=
  String.mk (((s.data.dropWhile isWS).reverse.dropWhile isWS).reverse)

/-- Root part of os.path.splitext: cut at the last dot, unless every
character before that dot is itself a dot, in which case the name is kept
whole (leading-dot files have no extension). -/
def splitextRoot (s : String) : String :=
  let cs := s.toList
  match ((List.range cs.length).filter fun i => cs.getD i ' ' = '.').getLast? with
  | none => s
  | some d => if (cs.take d).any (fun c => c ≠ '.') then String.mk (cs.take d) else s

/-- os.path.join for the two-argument uses appearing in the converter. -/
def pathJoin (a b : String) : String :=
  if strStartsWith b "/" then b
  else if a = "" || strEndsWith a "/" then a ++ b
  else a ++ "/" ++ b

/-- converter._find_output_pdf: the first directory entry that starts with
the base name of the input file and whose lowercase form ends in ".pdf",
joined to the output directory. The requested target format plays no part
in the match. -/
def findOutputPdf (inputPath outputDir : String) (listing : List String) :
    Option String :=
  let base := splitextRoot (basename inputPath)
  match listing.find? (fun name =>
      strStartsWith name base && strEndsWith (lowerStr name) ".pdf") with
  | some name => some (pathJoin outputDir name)
  | none => none

/-- Python a or b for strings: b when a is empty. -/
def orEmpty (a b : String) : String :=
  if a = "" then b else a

/-- Diagnostic text attached to converter errors, as built by
run_libreoffice_convert: (stderr_text or stdout_text or dflt).strip(). -/
def detailsOf (stderr stdout dflt : String) : String :=
  strTrim (orEmpty stderr (orEmpty stdout dflt))

/-- Tail of run_libreoffice_convert for a process that exited with return
code 0: locate the produced artifact in the output directory listing, or
fail with the captured diagnostics. -/
def postExitZero (inputPath outputDir : String) (listing : List String)
    (stderr stdout : String) : Except String String :=
  match findOutputPdf inputPath outputDir listing with
  | some out => Except.ok out
  | none =>
      Except.error
        ("Output file not created: " ++ detailsOf stderr stdout "No output produced")

/-- Stated for comparison with the claim wording only, not taken from the
code: the expected output extension for the requested target format, that
is, the format name before any colon-separated filter suffix, defaulting
to pdf when no format is requested. -/
def specExpectedExt (convert_to : Option String) : String :=
  "." ++ String.mk ((splitOnChar ':' (convert_to.getD "pdf").data).headD
    ['p', 'd', 'f'])

/-- Stated for comparison with the claim wording only, not taken from the
code: a directory entry matching the input base name together with the
expected extension for the requested target format. -/
def specMatchesOutput (inputPath : String) (convert_to : Option String)
    (name : String) : Bool :=
  strStartsWith name (splitextRoot (basename inputPath)) &&
    strEndsWith (lowerStr name) (specExpectedExt convert_to)

/-- Signals the timeout branch of run_libreoffice_convert can deliver,
either to the whole process group (via os.killpg on the group id obtained
from os.getpgid) or, when no group id is available, to the single child
process. -/
inductive KillSignal where
  | termGroup
  | termProc
  | killGroup
  | killProc
  deriving DecidableEq, Repr

/-- Timeout branch of run_libreoffice_convert, reached when the wall-clock
deadline elapses before the process exits. pgid is the process group id
when os.getpgid succeeded. aliveAtTerm states that the process still
exists when the graceful signal is delivered; contextlib.suppress of
ProcessLookupError makes delivery a silent no-op otherwise. exitsInGrace
states that proc.wait() returns within the 5 second grace period that
follows the graceful signal. aliveAtKill states that the process still
exists when the forceful signal is delivered. The function returns the
successfully delivered signals in order together with the outcome of the
whole call, which is unconditionally the timeout error. -/
def timeoutEscalation (pgid : Option Int)
    (aliveAtTerm exitsInGrace aliveAtKill : Bool) :
    List KillSignal × Except String String :=
  let termEvents : List KillSignal :=
    if aliveAtTerm then
      [if pgid.isSome then KillSignal.termGroup else KillSignal.termProc]
    else []
  let killEvents : List KillSignal :=
    if aliveAtTerm && !exitsInGrace then
      (if aliveAtKill then
        [if pgid.isSome then KillSignal.killGroup else KillSignal.killProc]
       else [])
    else []
  (termEvents ++ killEvents, Except.error "Conversion timed out")

/-
Helper lemmas, shared by the claim theorems below.
-/

/-- Lookup after the in-place rewrite of the entry stored under id. -/
lemma lookup_map_update (l : List (String × Job)) (id : String) (f : Job → Job) :
    List.lookup id (l.map fun p => if p.1 = id then (p.1, f p.2) else p)
      = (List.lookup id l).map f := by
  induction l with
  | nil => simp
  | cons hd tl ih =>
      obtain ⟨a, b⟩ := hd
      by_cases h : a = id
      · subst h
        simp only [List.map_cons]
        rw [if_pos trivial]
        simp [List.lookup]
      · have h2 : (id == a) = false := by
          simp [beq_iff_eq]
          exact fun hh => h hh.symm
        simp only [List.map_cons]
        rw [if_neg h]
        simp [List.lookup, h2, ih]

/-- Lookup after updateJob on the same id. -/
lemma lookup_updateJob (st : QState) (id : String) (f : Job → Job) :
    List.lookup id (updateJob st id f).jobs = (List.lookup id st.jobs).map f :=
  lookup_map_update st.jobs id f

/-- The attempt indices the retry loop visits form a contiguous run that
starts at the initial attempt index and is no longer than the number of
remaining iterations. -/
lemma retryRun_invoked_spec (runner : Nat → Except String String) :
    ∀ (rem att r0 : Nat) (e : Option String),
      (retryRun runner rem att r0 e).invoked.length ≤ rem ∧
      (retryRun runner rem att r0 e).invoked
        = List.range' att (retryRun runner rem att r0 e).invoked.length := by
  intro rem
  induction rem with
  | zero => intro att r0 e; simp [retryRun]
  | succ n ih =>
      intro att r0 e
      cases hr : runner att with
      | ok p => simp [retryRun, hr, List.range']
      | error err =>
          have h := ih (att + 1) att (some err)
          have hinv : (retryRun runner (n + 1) att r0 e).invoked
              = att :: (retryRun runner n (att + 1) att (some err)).invoked := by
            simp [retryRun, hr]
          constructor
          · rw [hinv, List.length_cons]
            exact Nat.succ_le_succ h.1
          · rw [hinv, List.length_cons, List.range'_succ]
            exact congrArg (List.cons att) h.2

/-- When the runner fails at every index below att + k and succeeds at
att + k, and k more iterations are available, the loop stops exactly at the
successful attempt. -/
lemma retryRun_first_success (runner : Nat → Except String String) (p : String) :
    ∀ (k rem att r0 : Nat) (e : Option String),
      k < rem →
      runner (att + k) = Except.ok p →
      (∀ i, i < k → ∃ msg, runner (att + i) = Except.error msg) →
      retryRun runner rem att r0 e
        = ⟨List.range' att (k + 1), att + k, Except.ok p⟩ := by
  intro k
  induction k with
  | zero =>
      intro rem att r0 e hk hok _
      obtain ⟨m, rfl⟩ : ∃ m, rem = m + 1 := ⟨rem - 1, by omega⟩
      rw [Nat.add_zero] at hok
      simp [retryRun, hok, List.range']
  | succ k ih =>
      intro rem att r0 e hk hok hfail
      obtain ⟨m, rfl⟩ : ∃ m, rem = m + 1 := ⟨rem - 1, by omega⟩
      obtain ⟨msg, hmsg⟩ := hfail 0 (Nat.succ_pos k)
      rw [Nat.add_zero] at hmsg
      have hrec := ih m (att + 1) att (some msg) (by omega)
        (by rw [(by omega : att + 1 + k = att + (k + 1))]; exact hok)
        (fun i hi => by
          rw [(by omega : att + 1 + i = att + (i + 1))]
          exact hfail (i + 1) (by omega))
      have hstep : retryRun runner (m + 1) att r0 e
          = ⟨att :: (retryRun runner m (att + 1) att (some msg)).invoked,
             (retryRun runner m (att + 1) att (some msg)).retries,
             (retryRun runner m (att + 1) att (some msg)).result⟩ := by
        simp [retryRun, hmsg]
      rw [hstep, hrec]
      simp [List.range'_succ]
      omega

/-- When the runner fails at every index the loop will visit, the loop
result is the error of the final attempt. -/
lemma retryRun_all_fail (runner : Nat → Except String String) (f : Nat → String) :
    ∀ (rem att r0 : Nat) (e : Option String),
      1 ≤ rem →
      (∀ i, i < rem → runner (att + i) = Except.error (f (att + i))) →
      (retryRun runner rem att r0 e).result = Except.error (f (att + rem - 1)) := by
  intro rem
  induction rem with
  | zero => intro att r0 e h; omega
  | succ n ih =>
      intro att r0 e _ hfail
      have h0 := hfail 0 (Nat.succ_pos n)
      rw [Nat.add_zero] at h0
      cases n with
      | zero => simp [retryRun, h0]
      | succ m =>
          have hrec := ih (att + 1) att (some (f att)) (by omega)
            (fun i hi => by
              rw [(by omega : att + 1 + i = att + (i + 1))]
              exact hfail (i + 1) (by omega))
          have hstep : (retryRun runner (m + 1 + 1) att r0 e).result
              = (retryRun runner (m + 1) (att + 1) att (some (f att))).result := by
            simp [retryRun, h0]
          rw [hstep, hrec, (by omega : att + 1 + (m + 1) - 1 = att + (m + 1 + 1) - 1)]

/-- The scheduler-loop update always lands in a terminal status. -/
lemma runJobUpdate_status_terminal (j : Job) (runner : Nat → Except String String)
    (now : Int) :
    (runJobUpdate j runner now).status = JobStatus.done ∨
      (runJobUpdate j runner now).status = JobStatus.failed := by
  cases hres : (attemptWithRetries j.max_retries j.retries runner).result with
  | ok out => left; simp [runJobUpdate, hres]
  | error e => right; simp [runJobUpdate, hres]

/-- The scheduler-loop update always stamps finished_at with the clock. -/
lemma runJobUpdate_finished_at (j : Job) (runner : Nat → Except String String)
    (now : Int) :
    (runJobUpdate j runner now).finished_at = some now := by
  cases hres : (attemptWithRetries j.max_retries j.retries runner).result with
  | ok out => simp [runJobUpdate, hres]
  | error e => simp [runJobUpdate, hres]

/-- The boolean expiry test, characterised as a proposition. -/
lemma isExpired_iff (ttl now : Int) (j : Job) :
    isExpired ttl now j = true ↔
      ((j.status = JobStatus.done ∨ j.status = JobStatus.failed ∨
          j.status = JobStatus.cleaned) ∧
        ∃ t, j.finished_at = some t ∧ now - t > ttl) := by
  cases hf : j.finished_at with
  | none => simp [isExpired, hf]
  | some t => simp [isExpired, hf, or_assoc]

/-- Every record carries exactly one status, so the five per-status counts
partition the registry. -/
lemma filter_status_partition (l : List (String × Job)) :
    (l.filter fun p => p.2.status == JobStatus.queued).length +
      (l.filter fun p => p.2.status == JobStatus.running).length +
      (l.filter fun p => p.2.status == JobStatus.done).length +
      (l.filter fun p => p.2.status == JobStatus.failed).length +
      (l.filter fun p => p.2.status == JobStatus.cleaned).length = l.length := by
  induction l with
  | nil => rfl
  | cons hd tl ih =>
      cases h : hd.2.status <;>
        simp [List.filter_cons, h, List.length_cons] <;> omega

/-
Claim theorems.
-/

/-- C3: for every job and every runner, including one that always raises,
run_job never propagates an exception to its caller (the update function is
total and returns a job record rather than an exceptional result) and
always leaves the job in a terminal status: done with outfile_path and
finished_at set when the retry loop returns a path, failed with message and
finished_at set when it raises. -/
theorem c3_run_job_never_raises_terminal (j : Job)
    (runner : Nat → Except String String) (now : Int) :
    ((runJobUpdate j runner now).status = JobStatus.done ∨
        (runJobUpdate j runner now).status = JobStatus.failed) ∧
    (∀ out, (attemptWithRetries j.max_retries j.retries runner).result = Except.ok out →
        (runJobUpdate j runner now).status = JobStatus.done ∧
        (runJobUpdate j runner now).outfile_path = some out ∧
        (runJobUpdate j runner now).finished_at = some now) ∧
    (∀ e, (attemptWithRetries j.max_retries j.retries runner).result = Except.error e →
        (runJobUpdate j runner now).status = JobStatus.failed ∧
        (runJobUpdate j runner now).message = some e ∧
        (runJobUpdate j runner now).finished_at = some now) := by
  refine ⟨runJobUpdate_status_terminal j runner now, ?_, ?_⟩
  · intro out hres
    simp [runJobUpdate, hres]
  · intro e hres
    simp [runJobUpdate, hres]

/-- Concrete job used by the C3 witness. -/
def c3job : Job :=
  { id := "j3", infile_path := "in/doc.docx", outdir := "/tmp/o2pdata/j3",
    convert_to := none, max_retries := 2 }

/-- C3 witness: a job run against a runner that always fails still lands in
a terminal failed state with message and finished_at set. -/
theorem c3_witness :
    (runJobUpdate c3job (fun _ => Except.error "soffice crashed") 9).status
        = JobStatus.failed ∧
    (runJobUpdate c3job (fun _ => Except.error "soffice crashed") 9).message
        = some "soffice crashed" ∧
    (runJobUpdate c3job (fun _ => Except.error "soffice crashed") 9).finished_at
        = some 9 :=
  (c3_run_job_never_raises_terminal c3job (fun _ => Except.error "soffice crashed")
      9).2.2 "soffice crashed" rfl

/-- C4: the Retry Controller invokes the Process Runner at most
max_retries + 1 times, writes the 0-based attempt index to the retries
field before each attempt begins (so the visited indices are exactly
0, 1, ..., in order, which makes the retries field monotonically
non-decreasing), every recorded index stays at or below max_retries, and
the loop stops immediately at the first successful attempt. -/
theorem c4_retry_controller_bounds (maxR : Int)
    (runner : Nat → Except String String) (h : 0 ≤ maxR) :
    (attemptWithRetries maxR 0 runner).invoked.length ≤ maxR.toNat + 1 ∧
    (attemptWithRetries maxR 0 runner).invoked
        = List.range (attemptWithRetries maxR 0 runner).invoked.length ∧
    (∀ x ∈ (attemptWithRetries maxR 0 runner).invoked, (x : Int) ≤ maxR) ∧
    (∀ k p, runner k = Except.ok p →
        (∀ i, i < k → ∃ msg, runner i = Except.error msg) →
        (k : Int) ≤ maxR →
        (attemptWithRetries maxR 0 runner).invoked = List.range (k + 1) ∧
        (attemptWithRetries maxR 0 runner).result = Except.ok p ∧
        (attemptWithRetries maxR 0 runner).retries = k) := by
  unfold attemptWithRetries
  have hrem : (maxR + 1).toNat = maxR.toNat + 1 := by omega
  have hspec := retryRun_invoked_spec runner ((maxR + 1).toNat) 0 0 none
  refine ⟨?_, ?_, ?_, ?_⟩
  · calc (retryRun runner ((maxR + 1).toNat) 0 0 none).invoked.length
        ≤ (maxR + 1).toNat := hspec.1
      _ = maxR.toNat + 1 := hrem
  · rw [List.range_eq_range']
    exact hspec.2
  · intro x hx
    have hx2 : x ∈ List.range' 0
        (retryRun runner ((maxR + 1).toNat) 0 0 none).invoked.length :=
      hspec.2 ▸ hx
    have hlt : x < (retryRun runner ((maxR + 1).toNat) 0 0 none).invoked.length := by
      have := List.mem_range'_1.mp hx2
      omega
    have := hspec.1
    omega
  · intro k p hok hfail hk
    have hk2 : k < (maxR + 1).toNat := by omega
    have hs := retryRun_first_success runner p k ((maxR + 1).toNat) 0 0 none hk2
      (by simpa using hok) (fun i hi => by simpa using hfail i hi)
    rw [hs]
    refine ⟨by rw [List.range_eq_range'], rfl, by simp⟩

/-- C4 witness: with max_retries = 2 and a runner that fails once then
succeeds, the loop visits attempts 0 and 1 and returns the output. -/
theorem c4_witness :
    (attemptWithRetries 2 0
        (fun i => if i = 0 then Except.error "boom" else Except.ok "out.pdf")).invoked
        = List.range 2 ∧
    (attemptWithRetries 2 0
        (fun i => if i = 0 then Except.error "boom" else Except.ok "out.pdf")).result
        = Except.ok "out.pdf" ∧
    (attemptWithRetries 2 0
        (fun i => if i = 0 then Except.error "boom" else Except.ok "out.pdf")).retries
        = 1 := by
  have h := (c4_retry_controller_bounds 2
      (fun i => if i = 0 then Except.error "boom" else Except.ok "out.pdf")
      (by norm_num)).2.2.2 1 "out.pdf" (by norm_num)
    (fun i hi => by
      have hi0 : i = 0 := by omega
      subst hi0
      exact ⟨"boom", rfl⟩)
    (by norm_num)
  exact ⟨h.1, h.2.1, h.2.2⟩

/-- C9: when the Retry Controller exhausts all attempts, it re-raises the
failure produced by the last attempt with its message unchanged; the
generic synthesized message appears only when the loop body never ran at
all, which happens exactly when max_retries + 1 is nonpositive. -/
theorem c9_exhaustion_reraises_last (maxR : Int) (r0 : Nat)
    (runner : Nat → Except String String) (f : Nat → String) :
    (0 ≤ maxR → (∀ i, i ≤ maxR.toNat → runner i = Except.error (f i)) →
        (attemptWithRetries maxR r0 runner).result
          = Except.error (f maxR.toNat)) ∧
    (maxR + 1 ≤ 0 →
        (attemptWithRetries maxR r0 runner).result
          = Except.error "Unknown conversion failure") := by
  constructor
  · intro h hfail
    have h1 : (1 : Nat) ≤ (maxR + 1).toNat := by omega
    have hall := retryRun_all_fail runner f ((maxR + 1).toNat) 0 r0 none h1
      (fun i hi => by simpa using hfail i (by omega))
    unfold attemptWithRetries
    rw [hall, (by omega : 0 + (maxR + 1).toNat - 1 = maxR.toNat)]
  · intro h
    have h0 : (maxR + 1).toNat = 0 := by omega
    unfold attemptWithRetries
    rw [h0]
    rfl

/-- C9 witness: with max_retries = 1 and both attempts failing with
distinct messages, the final error carries the message of the second,
last, attempt verbatim. -/
theorem c9_witness :
    (attemptWithRetries 1 0
        (fun i => Except.error
          (if i = 0 then "first failure" else "second failure"))).result
      = Except.error "second failure" := by
  have h := (c9_exhaustion_reraises_last 1 0
      (fun i => Except.error (if i = 0 then "first failure" else "second failure"))
      (fun i => if i = 0 then "first failure" else "second failure")).1
    (by norm_num) (fun i _ => rfl)
  simpa using h

/-- C2: for every Process Runner invocation whose external process has not
exited when the wall-clock deadline elapses (so the group id is known and
the process is alive when the graceful signal goes out), the runner sends
SIGTERM to the whole process group, waits the grace period, sends SIGKILL
to the group when the process is still alive afterwards, and the call fails
with the timed-out error no matter what the signals achieved; when the
process has already exited, every signalling step is a silent no-op rather
than an error, and the call still fails with the same timed-out error. -/
theorem c2_timeout_escalation_behaviour (pgid : Option Int) (g : Int)
    (exitsInGrace aliveAtKill : Bool) :
    (∀ a e k : Bool,
        (timeoutEscalation pgid a e k).2 = Except.error "Conversion timed out") ∧
    (pgid = some g →
        (timeoutEscalation pgid true exitsInGrace aliveAtKill).1
          = KillSignal.termGroup ::
              (if exitsInGrace then []
               else if aliveAtKill then [KillSignal.killGroup] else [])) ∧
    ((timeoutEscalation pgid false exitsInGrace aliveAtKill).1 = []) := by
  refine ⟨fun a e k => rfl, ?_, ?_⟩
  · rintro rfl
    cases exitsInGrace <;> cases aliveAtKill <;> simp [timeoutEscalation]
  · cases exitsInGrace <;> cases aliveAtKill <;> simp [timeoutEscalation]

/-- C2 witness: a live process group that survives the grace period
receives SIGTERM then SIGKILL, and the call still fails with the timed-out
error. -/
theorem c2_witness :
    (timeoutEscalation (some 42) true false true).1
        = [KillSignal.termGroup, KillSignal.killGroup] ∧
    (timeoutEscalation (some 42) true false true).2
        = Except.error "Conversion timed out" := by
  have h := c2_timeout_escalation_behaviour (some 42) 42 false true
  exact ⟨by simpa using h.2.1 rfl, h.1 true false true⟩

/-- C7 counterexample job: a fresh job about to be run on the synchronous
path. -/
def c7job : Job :=
  { id := "js", infile_path := "doc.docx", outdir := "/tmp/o2pdata/js",
    convert_to := none, max_retries := 0 }

/-- C7 counterexample: on the synchronous execution path a job reaches the
terminal status done while finished_at stays unset, refuting the claim
that finished_at is assigned the moment a job first reaches a terminal
status on every execution path. -/
theorem c7_counterexample :
    (convertSyncUpdate c7job (fun _ => Except.ok "doc.pdf")).1.status
        = JobStatus.done ∧
    (convertSyncUpdate c7job (fun _ => Except.ok "doc.pdf")).1.finished_at
        = none :=
  ⟨rfl, rfl⟩

/-- C7 amended: finished_at is stamped by the scheduler-loop path exactly
when the job reaches done or failed; the synchronous path and the
admission-rejection path never touch finished_at; cleanup_job fills
finished_at only when it is unset, and preserves any already-set nonzero
value (the Python fallback job.finished_at or now also replaces a stored
falsy 0). -/
theorem c7_finished_at_by_operation (j : Job)
    (runner : Nat → Except String String) (now t : Int) :
    (runJobUpdate j runner now).finished_at = some now ∧
    (convertSyncUpdate j runner).1.finished_at = j.finished_at ∧
    (rejectUpdate j).finished_at = j.finished_at ∧
    (j.finished_at = none → (cleanupUpdate now j).finished_at = some now) ∧
    (j.finished_at = some t → t ≠ 0 →
        (cleanupUpdate now j).finished_at = some t) := by
  refine ⟨runJobUpdate_finished_at j runner now, ?_, rfl, ?_, ?_⟩
  · cases hres : (attemptWithRetries j.max_retries j.retries runner).result with
    | ok out => simp [convertSyncUpdate, hres]
    | error e => simp [convertSyncUpdate, hres]
  · intro h
    simp [cleanupUpdate, orFalsy, h]
  · intro h ht
    simp [cleanupUpdate, orFalsy, h, ht]

/-- Job used by the C7 witness: already finished at clock value 5. -/
def c7wjob : Job :=
  { id := "j7", infile_path := "in.docx", outdir := "/tmp/o2pdata/j7",
    convert_to := none, max_retries := 0, status := JobStatus.done,
    finished_at := some 5 }

/-- C7 witness: cleanup_job keeps an already-set nonzero finished_at, and
the scheduler-loop path stamps the clock on a terminal transition. -/
theorem c7_witness :
    (cleanupUpdate 99 c7wjob).finished_at = some 5 ∧
    (runJobUpdate c7wjob (fun _ => Except.error "x") 42).finished_at = some 42 := by
  have h := c7_finished_at_by_operation c7wjob (fun _ => Except.error "x") 42 5
  exact ⟨h.2.2.2.2 rfl (by norm_num), h.1⟩

/-- C5 counterexample: the claim reads the match as base name plus the
expected extension for the requested target format, but the code matches
".pdf" unconditionally: with input doc.docx converted to target format
txt, the produced doc.txt matches the claim criterion, yet the runner
fails with the no-output error instead of returning its path. -/
theorem c5_counterexample :
    specMatchesOutput "doc.docx" (some "txt") "doc.txt" = true ∧
    findOutputPdf "doc.docx" "/out" ["doc.txt"] = none ∧
    postExitZero "doc.docx" "/out" ["doc.txt"] "" ""
        = Except.error "Output file not created: No output produced" :=
  ⟨rfl, rfl, rfl⟩

/-- C5 amended: for every invocation whose process exits 0, if no file in
the output directory listing matches the input base name together with the
.pdf extension (the extension checked is always .pdf, whatever target
format was requested), the call fails with an error carrying the captured
diagnostic text and never silently succeeds; otherwise it returns the
first such file joined to the output directory. -/
theorem c5_output_discovery (inputPath outputDir : String)
    (listing : List String) (stderr stdout : String) :
    ((listing.find? fun name =>
        strStartsWith name (splitextRoot (basename inputPath)) &&
          strEndsWith (lowerStr name) ".pdf") = none →
      postExitZero inputPath outputDir listing stderr stdout
        = Except.error ("Output file not created: "
            ++ detailsOf stderr stdout "No output produced")) ∧
    (∀ name, (listing.find? fun n =>
        strStartsWith n (splitextRoot (basename inputPath)) &&
          strEndsWith (lowerStr n) ".pdf") = some name →
      postExitZero inputPath outputDir listing stderr stdout
        = Except.ok (pathJoin outputDir name)) := by
  constructor
  · intro h
    simp [postExitZero, findOutputPdf, h]
  · intro name h
    simp [postExitZero, findOutputPdf, h]

/-- C5 witness: when the listing holds a matching pdf, the runner returns
it joined to the output directory. -/
theorem c5_witness :
    postExitZero "in/doc.docx" "/out" ["doc.pdf"] "warning text" ""
        = Except.ok "/out/doc.pdf" := by
  have h := (c5_output_discovery "in/doc.docx" "/out" ["doc.pdf"]
      "warning text" "").2 "doc.pdf" rfl
  rw [(rfl : pathJoin "/out" "doc.pdf" = "/out/doc.pdf")] at h
  exact h

/-- Job occupying the single queue slot in the C1 scenario. -/
def c1jobA : Job :=
  { id := "a", infile_path := "a.docx", outdir := "/tmp/o2pdata/a",
    convert_to := none, max_retries := 2 }

/-- Job submitted while the queue is full in the C1 scenario. -/
def c1jobB : Job :=
  { id := "b", infile_path := "b.docx", outdir := "/tmp/o2pdata/b",
    convert_to := none, max_retries := 2 }

/-- Registry state in which the pending queue already holds
MAX_QUEUE_SIZE = 1 ids when job b is submitted. -/
def c1st : QState :=
  { jobs := [("a", c1jobA), ("b", c1jobB)], pending := ["a"] }

/-- C1 (bug evidence): with MAX_QUEUE_SIZE = 1 and the pending queue full,
enqueue marks job b failed with the queue-full message and keeps it out of
pending, but it does not record finished_at, and the run_job task that
convert_async schedules unconditionally afterwards still acquires a gate
slot and runs the rejected job to done, overwriting the failed status. -/
theorem c1_rejected_job_still_runs :
    ((List.lookup "b" (enqueue 1 c1st "b").jobs).map Job.status
        = some JobStatus.failed) ∧
    ((List.lookup "b" (enqueue 1 c1st "b").jobs).map Job.message
        = some (some "Queue is full")) ∧
    ((List.lookup "b" (enqueue 1 c1st "b").jobs).map Job.finished_at
        = some none) ∧
    (enqueue 1 c1st "b").pending = ["a"] ∧
    ((List.lookup "b"
        (runJob (enqueue 1 c1st "b") "b"
          (fun _ => Except.ok "/tmp/o2pdata/b/b.pdf") 50).jobs).map Job.status
        = some JobStatus.done) := by
  refine ⟨rfl, rfl, rfl, rfl, rfl⟩

/-- Queued job cleaned while still pending in the C6 scenario. -/
def c6job : Job :=
  { id := "q", infile_path := "q.docx", outdir := "/tmp/o2pdata/q",
    convert_to := none, max_retries := 2 }

/-- Registry state holding one still-queued job. -/
def c6st : QState :=
  { jobs := [("q", c6job)], pending := ["q"] }

/-- C6 counterexample: cleanup_job moves a job that is still queued
directly to cleaned, refuting the claim that no operation moves a queued
or running job directly to cleaned. -/
theorem c6_counterexample :
    (List.lookup "q" c6st.jobs).map Job.status = some JobStatus.queued ∧
    (List.lookup "q" (cleanupJob c6st "q" 7).jobs).map Job.status
        = some JobStatus.cleaned ∧
    (cleanupJob c6st "q" 7).pending = [] := by
  refine ⟨rfl, rfl, rfl⟩

/-- C6 amended: cleanup_job rewrites any existing record as cleaned,
whatever its prior status, including queued and running, also dropping the
id from pending; the eviction sweep only ever deletes records, leaving
every surviving record untouched; the scheduler-loop update lands every
job it runs in done or failed; and enqueue either leaves the record alone
or marks it queued on admission or failed on rejection. -/
theorem c6_status_transitions (st : QState) (id : String)
    (now ttl tnow maxQ : Int) (j : Job)
    (runner : Nat → Except String String) :
    (List.lookup id st.jobs = some j →
        List.lookup id (cleanupJob st id now).jobs
            = some (cleanupUpdate now j) ∧
        (cleanupUpdate now j).status = JobStatus.cleaned) ∧
    (∀ p ∈ (evictOldJobs ttl tnow st).jobs, p ∈ st.jobs) ∧
    ((runJobUpdate j runner now).status = JobStatus.done ∨
        (runJobUpdate j runner now).status = JobStatus.failed) ∧
    (List.lookup id st.jobs = some j →
        ∃ j2, List.lookup id (enqueue maxQ st id).jobs = some j2 ∧
          (j2 = j ∨ j2 = rejectUpdate j ∨
            j2 = { j with status := JobStatus.queued })) := by
  refine ⟨?_, ?_, runJobUpdate_status_terminal j runner now, ?_⟩
  · intro h
    refine ⟨?_, rfl⟩
    unfold cleanupJob
    rw [h]
    show List.lookup id (updateJob st id (cleanupUpdate now)).jobs
        = some (cleanupUpdate now j)
    rw [lookup_updateJob, h]
    rfl
  · intro p hp
    unfold evictOldJobs at hp
    by_cases h : ttl ≤ 0
    · rw [if_pos h] at hp
      exact hp
    · rw [if_neg h] at hp
      exact (List.mem_filter.mp hp).1
  · intro h
    unfold enqueue
    by_cases h1 : maxQ ≠ 0 ∧ maxQ ≤ (st.pending.length : Int)
    · rw [if_pos h1]
      refine ⟨rejectUpdate j, ?_, Or.inr (Or.inl rfl)⟩
      rw [lookup_updateJob, h]
      rfl
    · rw [if_neg h1]
      by_cases h2 : id ∈ st.pending
      · rw [if_pos h2]
        exact ⟨j, h, Or.inl rfl⟩
      · rw [if_neg h2]
        refine ⟨{ j with status := JobStatus.queued }, ?_,
          Or.inr (Or.inr rfl)⟩
        show List.lookup id
            (updateJob st id (fun j => { j with status := JobStatus.queued })).jobs
          = _
        rw [lookup_updateJob, h]
        rfl

/-- C6 witness: applying the amended transition theorem to the concrete
queued job shows cleanup_job rewriting it as cleaned. -/
theorem c6_witness :
    List.lookup "q" (cleanupJob c6st "q" 7).jobs = some (cleanupUpdate 7 c6job) ∧
    (cleanupUpdate 7 c6job).status = JobStatus.cleaned :=
  (c6_status_transitions c6st "q" 7 1 1 0 c6job
      (fun _ => Except.ok "q.pdf")).1 rfl

/-- C8: the eviction sweep deletes exactly the records whose status is
done, failed, or cleaned and whose finished_at is present and strictly
older than the retention window, keeping every other record with its
fields and relative order unchanged and the pending list untouched; a
retention window of zero or a negative one disables the sweep entirely. -/
theorem c8_eviction_sweep (ttl now : Int) (st : QState) :
    (ttl ≤ 0 → evictOldJobs ttl now st = st) ∧
    (0 < ttl → ∀ p : String × Job,
        (p ∈ (evictOldJobs ttl now st).jobs ↔
          p ∈ st.jobs ∧
            ¬((p.2.status = JobStatus.done ∨ p.2.status = JobStatus.failed ∨
                p.2.status = JobStatus.cleaned) ∧
              ∃ t, p.2.finished_at = some t ∧ now - t > ttl))) ∧
    (evictOldJobs ttl now st).pending = st.pending ∧
    List.Sublist (evictOldJobs ttl now st).jobs st.jobs := by
  refine ⟨?_, ?_, ?_, ?_⟩
  · intro h
    simp [evictOldJobs, h]
  · intro h p
    have hne : ¬ ttl ≤ 0 := by omega
    rw [evictOldJobs, if_neg hne]
    simp only [List.mem_filter, Bool.not_eq_eq_eq_not, Bool.not_true]
    rw [show (isExpired ttl now p.2 = false) ↔ ¬(isExpired ttl now p.2 = true) by
        simp,
      isExpired_iff]
  · by_cases h : ttl ≤ 0 <;> simp [evictOldJobs, h]
  · by_cases h : ttl ≤ 0
    · simp [evictOldJobs, h]
    · rw [evictOldJobs, if_neg h]
      exact List.filter_sublist st.jobs

/-- Terminal record used by the C8 witness. -/
def c8job : Job :=
  { id := "old", infile_path := "old.docx", outdir := "/tmp/o2pdata/old",
    convert_to := none, max_retries := 2, status := JobStatus.done,
    finished_at := some 1 }

/-- Registry state for the C8 witness. -/
def c8st : QState :=
  { jobs := [("old", c8job)], pending := [] }

/-- C8 witness: with a negative retention window the sweep deletes
nothing, and with a positive window the stale done record is gone while
membership is characterised by the theorem. -/
theorem c8_witness :
    evictOldJobs (-1) 100 c8st = c8st ∧
    ¬ (("old", c8job) ∈ (evictOldJobs 10 100 c8st).jobs) := by
  have h1 := (c8_eviction_sweep (-1) 100 c8st).1 (by norm_num)
  have h2 := ((c8_eviction_sweep 10 100 c8st).2.1 (by norm_num)
    ("old", c8job))
  refine ⟨h1, fun hmem => ?_⟩
  have := (h2.mp hmem).2
  exact this ⟨Or.inl rfl, 1, rfl, by norm_num⟩

/-- C10: counters reports total as the number of records in the registry
and fills the four status buckets queued, running, done, failed; cleaned
records fall in no bucket, so the four bucket counts sum to total minus
the number of cleaned records. -/
theorem c10_counters_partition (st : QState) :
    (counters st).total = st.jobs.length ∧
    (counters st).queue_len + (counters st).running + (counters st).done +
        (counters st).failed +
        (st.jobs.filter fun p => p.2.status == JobStatus.cleaned).length
      = (counters st).total := by
  refine ⟨rfl, ?_⟩
  simpa [counters] using filter_status_partition st.jobs

end OfficeToPDF
